import Mathlib

/-!
Verification of the selection/mode synchronization bridge (`src/view.py`).

The file shallowly embeds the Python source: the key translator `keymap`,
the host-view geometry used by `ViewMeta.visual` (a Sublime view is modelled
as its list of lines, with `text_point`, `line` and `rowcol` as in the host),
the selection-shape resolver `ViewMeta.visual`, the per-surface registry
`ViewMeta.get`, the hot-reload migration `ActualVim.reload_classes`, the
text-synchronization part of `ActualVim.press`, and the panel adapter
`ActualPanel`.  Fallible Python code (a statement that can raise) is embedded
with `Option`: `Option.none` is an uncaught exception.
-/

namespace ActualVim

/-- The fixed `KEYMAP` table of `view.py`: named keys to literal control
sequences.  `'\b' = \x08`, `'\033' = ESC = \x1b`. -/
def KEYMAP : List (String × String) :=
  [("backspace", "\x08"),
   ("enter", "\n"),
   ("escape", "\x1b"),
   ("space", " "),
   ("tab", "\t"),
   ("up", "\x1b[A"),
   ("down", "\x1b[B"),
   ("right", "\x1b[C"),
   ("left", "\x1b[D")]

/-- `KEYMAP.get(key, key)`: dictionary lookup with default. -/
def keymapGet (key : String) : String :=
  match KEYMAP.find? (fun p => p.1 = key) with
  | some p => p.2
  | Option.none => key

/-- Python `ord`: code point of a one-character string, a `TypeError`
(embedded as `Option.none`) on any string whose length is not 1. -/
def pyOrd (s : String) : Option Nat :=
  match s.toList with
  | [c] => some c.toNat
  | _ => Option.none

/-- Python `str.split('+')` on the character list of a string. -/
def splitOnPlus : List Char → List (List Char)
  | [] => [[]]
  | x :: xs =>
    let r := splitOnPlus xs
    if x = '+' then [] :: r
    else (x :: r.headD []) :: r.tail

/-- Python `chr((b - 64) % 128)` on an `Int`, matching Python's
nonnegative `%` for a positive modulus. -/
def ctrlChr (b : Nat) : String :=
  String.mk [Char.ofNat (((b : Int) - 64) % 128).toNat]

/-- `keymap` from `view.py`: if the key contains `'+'` and is not the literal
`"+"`, `rsplit` it into modifiers and base key; for a sole `ctrl` modifier,
`ord` the base key (raising on a multi-character base) and map code points in
`[63, 96)` to control characters; otherwise fall through to the `KEYMAP`
lookup on the (rebound) base key.  `Option.none` embeds the raised
`TypeError`. -/
def keymap (key : String) : Option String :=
  if key.toList.contains '+' ∧ key ≠ "+" then
    -- mods, key = key.rsplit('+', 1); mods = mods.split('+')
    -- (splitting at the last '+': mods is every '+'-segment but the last,
    -- the rebound key is the last segment)
    let parts := (splitOnPlus key.toList).map String.mk
    let mods := parts.dropLast
    let base := parts.getLastD ""
    if mods = ["ctrl"] then
      match pyOrd base with
      | Option.none => Option.none      -- ord() raises on a multi-char base
      | some b =>
        if 63 ≤ b ∧ b < 96 then some (ctrlChr b)
        else some (keymapGet base)
    else some (keymapGet base)
  else
    some (keymapGet key)

/-! ## Host-view geometry

A Sublime view's text is modelled by its list of lines (the text is the
lines joined by `"\n"`).  `text_point`, `line` and `rowcol` are the host
geometry calls `ViewMeta.visual` makes; they are used by the source on
in-document positions only. -/

/-- Character offset of the start of row `r`: each earlier line contributes
its length plus one newline. -/
def lineStart : List String → Nat → Nat
  | _, 0 => 0
  | [], _ + 1 => 0
  | l :: rest, r + 1 => l.length + 1 + lineStart rest r

/-- Length of row `r`. -/
def lineLen (lines : List String) (r : Nat) : Nat :=
  (lines.getD r "").length

/-- `view.text_point(row, col)`: offset of (row, col). -/
def text_point (lines : List String) (r c : Nat) : Nat :=
  lineStart lines r + c

/-- `view.rowcol(offset)`: the (row, col) of an offset.  An offset equal to a
row's end (the position of its `'\n'`) belongs to that row. -/
def rowcol : List String → Nat → Nat × Nat
  | [], off => (0, off)
  | l :: rest, off =>
    if off ≤ l.length then (0, off)
    else
      let p := rowcol rest (off - l.length - 1)
      (p.1 + 1, p.2)

/-- `view.line(offset)` as the pair (line-start offset, line-end offset) of
the line containing the offset (Sublime's `Region.a`/`Region.b` of the
line). -/
def line : List String → Nat → Nat × Nat
  | [], off => (off, off)
  | l :: rest, off =>
    if off ≤ l.length then (0, l.length)
    else
      let p := line rest (off - l.length - 1)
      (p.1 + l.length + 1, p.2 + l.length + 1)

/-! ## Selection shape resolver (`ViewMeta.visual`) -/

/-- `ViewMeta.visual`: turn the engine's (mode, anchor, cursor) into host
selection regions, each region kept as the ordered `(a, b)` pair passed to
`sublime.Region` (a reversed region has `a > b`).  Modes are the engine's
mode strings: `"V"` visual line, `"v"` visual char, `"\x16"` visual block. -/
def visual (lines : List String) (mode : String) (av bv : Nat × Nat) :
    List (Nat × Nat) :=
  let sr := av.1
  let sc := av.2
  let er := bv.1
  let ec := bv.2
  let a := text_point lines sr sc
  let b := text_point lines er ec
  if mode = "V" then
    -- visual line mode
    if a > b then
      [((line lines a).2, (line lines b).1)]
    else
      [((line lines a).1, (line lines b).2)]
  else if mode = "v" then
    -- visual mode
    if a > b then [(a + 1, b)] else [(a, b + 1)]
  else if mode = "\x16" then
    -- visual block mode
    let left := min sc ec
    let right := max sc ec + 1
    let top := min sr er
    let bot := max sr er
    (List.range' top (bot + 1 - top)).filterMap (fun i =>
      let ln := line lines (text_point lines i 0)
      let e := (rowcol lines ln.2).2
      if left ≤ e then
        some (text_point lines i left, text_point lines i (min right e))
      else Option.none)
  else
    [(a, b)]

/-! ## Surface registry (`ViewMeta.get`)

A host view object carries its surface id (`view.id()`) and a handle
distinguishing live surfaces: a surface id may be reused by the host after
destruction, in which case the old and the new view objects compare
unequal even though their ids agree. -/

structure View where
  vid : Nat
  handle : Nat
  deriving DecidableEq, Repr

/-- Per-surface bridge state: the fields `ViewMeta.__init__` /
`ActualVim.__init__` set on an instance (`self.view`, `self.last_sel`,
`self.buf`). -/
structure VState where
  view : View
  last_sel : Option (List (Nat × Nat))
  buf : Option (List String)
  deriving DecidableEq, Repr

/-- `cls(view)`: the constructor body of `ActualVim` (via `ViewMeta`) on a
fresh view. -/
def mkActualVim (view : View) : VState :=
  { view := view, last_sel := Option.none, buf := Option.none }

/-- The process-wide `_views` dictionary, keyed by surface id. -/
abbrev Registry := List (Nat × VState)

/-- `_views.get(vid)`. -/
def rlookup (reg : Registry) (vid : Nat) : Option VState :=
  match reg.find? (fun p => p.1 = vid) with
  | some p => some p.2
  | Option.none => Option.none

/-- `ViewMeta.get(view, create, exact)`: dictionary lookup by `view.id()`;
on a miss with `create` set, run the constructor (which may raise: the
exception is caught, nothing is registered, and absent is returned);
on a hit with `exact` set, revalidate that the stored state's view still
compares equal to the argument view, returning absent on a mismatch.
Returns the result together with the updated `_views`. -/
def registryGet (reg : Registry) (view : View) (create exact : Bool)
    (ctor : View → Option VState) : Option VState × Registry :=
  match rlookup reg view.vid with
  | Option.none =>
    if create then
      match ctor view with
      | Option.none => (Option.none, reg)       -- construction failed: not registered
      | some m => (some m, reg ++ [(view.vid, m)])
    else (Option.none, reg)
  | some m =>
    if exact = true ∧ m.view ≠ view then (Option.none, reg)
    else (some m, reg)

/-! ## Hot-reload migration (`ActualVim.reload_classes`)

Python instance attribute dictionaries are embedded as functions from
attribute names to optional values; `d1.update(d2)` makes `d2`'s bindings
win.  `cls.__new__(cls)` builds an instance of the (new) class *without
running `__init__`*, so its attribute dictionary is empty. -/

/-- A value an instance attribute can hold. -/
inductive PyVal
  | pyNone
  | nat (n : Nat)
  | snapshot (s : List (Nat × Nat))
  deriving DecidableEq, Repr

/-- An instance attribute dictionary. -/
abbrev AttrDict := String → Option PyVal

/-- The empty attribute dictionary. -/
def dempty : AttrDict := fun _ => Option.none

/-- `d1.update(d2)` (as a lookup table: `d2`'s bindings win). -/
def dupdate (d1 d2 : AttrDict) : AttrDict :=
  fun k =>
    match d2 k with
    | some v => some v
    | Option.none => d1 k

/-- The per-entry body of `ActualVim.reload_classes`: build a blank instance
of the new class with `cls.__new__(cls)` (its `__dict__` is empty since
`__init__` is not run), build `nd` by copying the old instance's `__dict__`
first and the blank instance's `__dict__` second, and install `nd` into the
blank instance.  The result is the new entry's attribute dictionary. -/
def reloadEntry (old : AttrDict) : AttrDict :=
  let newd : AttrDict := dempty          -- cls.__new__(cls).__dict__
  let nd := dupdate (dupdate dempty old) newd
  dupdate newd nd                        -- new.__dict__.update(nd)

/-- `ActualVim.reload_classes`: migrate every `_views` entry. -/
def reload_classes (reg : List (Nat × AttrDict)) : List (Nat × AttrDict) :=
  reg.map (fun p => (p.1, reloadEntry p.2))

/-! ## Text synchronization in `ActualVim.press`

`press` translates the key, forwards it to the engine, and then replaces the
host text with the engine buffer's joined lines when the two differ, inside
a single `Edit` transaction.  The engine's command interpreter is external:
it is a parameter mapping (key literal, buffer lines) to new buffer lines.
The host text mutations performed are returned as a list of edit
operations. -/

/-- A text mutation performed on the host view inside an `Edit`
transaction. -/
inductive EditOp
  | replace (a b : Nat) (text : String)
  deriving DecidableEq, Repr

/-- Bridge state relevant to `press`'s text path: the host view's full text
and the engine buffer (`self.buf`, absent before first activation). -/
structure AVState where
  hostText : String
  buf : Option (List String)
  deriving DecidableEq, Repr

/-- The buffer-seeding part of `activate`: on first activation create the
engine buffer and fill it with the host text split into lines. -/
def activate (st : AVState) : AVState :=
  match st.buf with
  | Option.none => { st with buf := some (st.hostText.splitOn "\n") }
  | some _ => st

/-- `ActualVim.press(key)`, text path: activate, translate the key (an
uncaught `TypeError` from `keymap` propagates: `Option.none`), forward the
literal to the engine, join the resulting buffer lines, and when the joined
text differs from the host text replace the host's full region `(0, size)`
with it in one `Edit` transaction.  Returns the host text after the call
and the edit operations performed. -/
def press (engine : String → List String → List String) (st : AVState)
    (key : String) : Option (String × List EditOp) :=
  let st := activate st
  match st.buf with
  | Option.none => some (st.hostText, [])   -- `if self.buf is None: return`
  | some b =>
    match keymap key with
    | Option.none => Option.none
    | some lit =>
      let b := engine lit b
      let text := String.intercalate "\n" b
      if st.hostText ≠ text then
        some (text, [EditOp.replace 0 st.hostText.length text])
      else
        some (st.hostText, [])

/-! ## Command-line panel adapter (`ActualPanel`)

Only the panel lifecycle is modelled: the host calls `show` and `close`
issue, and the panel handle the adapter retains (`self.panel`).  The
settings writes and the proxy registration `show` also performs do not
open or close panels and are omitted. -/

/-- A host call that opens or closes a panel. -/
inductive PanelCall
  | showInput (initial : String)
  | closePanel (id : Nat)
  deriving DecidableEq, Repr

/-- The adapter's retained panel handle (`self.panel`), as the host id of
the open panel. -/
structure PanelState where
  panel : Option Nat
  deriving DecidableEq, Repr

/-- `ActualPanel.show(char)`: call `window.show_input_panel` (yielding a
fresh panel `newId`) and store the returned handle in `self.panel`.  No
other panel call is made. -/
def panelShow (_st : PanelState) (char : String) (newId : Nat) :
    PanelState × List PanelCall :=
  ({ panel := some newId }, [PanelCall.showInput char])

/-- `ActualPanel.close()`: close the retained panel when one is set. -/
def panelClose (st : PanelState) : List PanelCall :=
  match st.panel with
  | some i => [PanelCall.closePanel i]
  | Option.none => []

/-! ## Geometry lemmas -/

theorem lineLen_cons_zero (l : String) (rest : List String) :
    lineLen (l :: rest) 0 = l.length := rfl

theorem lineLen_cons_succ (l : String) (rest : List String) (r : Nat) :
    lineLen (l :: rest) (r + 1) = lineLen rest r := rfl

theorem lineStart_cons_succ (l : String) (rest : List String) (r : Nat) :
    lineStart (l :: rest) (r + 1) = l.length + 1 + lineStart rest r := rfl

/-- `view.line` at the in-document position `(r, c)` returns the bounds of
row `r`. -/
theorem line_at (lines : List String) : ∀ r c : Nat, r < lines.length →
    c ≤ lineLen lines r →
    line lines (lineStart lines r + c) =
      (lineStart lines r, lineStart lines r + lineLen lines r) := by
  induction lines with
  | nil => intro r c hr _hc; simp at hr
  | cons l rest ih =>
    intro r c hr hc
    cases r with
    | zero =>
      have hc0 : c ≤ l.length := hc
      show line (l :: rest) (0 + c) = (0, 0 + lineLen (l :: rest) 0)
      simp only [Nat.zero_add, line, lineLen_cons_zero]
      rw [if_pos hc0]
    | succ r =>
      have hr' : r < rest.length := by simpa using hr
      have hc' : c ≤ lineLen rest r := hc
      have key := ih r c hr' hc'
      rw [lineStart_cons_succ, lineLen_cons_succ]
      have harg : l.length + 1 + lineStart rest r + c =
          l.length + 1 + (lineStart rest r + c) := by omega
      rw [harg]
      simp only [line]
      rw [if_neg (by omega)]
      have hsub : l.length + 1 + (lineStart rest r + c) - l.length - 1 =
          lineStart rest r + c := by omega
      rw [hsub, key]
      simp only [Prod.mk.injEq]
      constructor <;> omega

/-- `view.rowcol` at the in-document position `(r, c)` returns `(r, c)`. -/
theorem rowcol_at (lines : List String) : ∀ r c : Nat, r < lines.length →
    c ≤ lineLen lines r →
    rowcol lines (lineStart lines r + c) = (r, c) := by
  induction lines with
  | nil => intro r c hr _hc; simp at hr
  | cons l rest ih =>
    intro r c hr hc
    cases r with
    | zero =>
      have hc0 : c ≤ l.length := hc
      show rowcol (l :: rest) (0 + c) = (0, c)
      simp only [Nat.zero_add, rowcol]
      rw [if_pos hc0]
    | succ r =>
      have hr' : r < rest.length := by simpa using hr
      have hc' : c ≤ lineLen rest r := hc
      have key := ih r c hr' hc'
      rw [lineStart_cons_succ]
      have harg : l.length + 1 + lineStart rest r + c =
          l.length + 1 + (lineStart rest r + c) := by omega
      rw [harg]
      simp only [rowcol]
      rw [if_neg (by omega)]
      have hsub : l.length + 1 + (lineStart rest r + c) - l.length - 1 =
          lineStart rest r + c := by omega
      rw [hsub, key]

/-! ## Claim theorems -/

/-- C5: block-mode selection resolution.  With `left` the minimum of the two
columns, `right` the maximum plus one, for every row `r` from the top row to
the bottom row inclusive the resolver skips the row when `left` exceeds that
row's end column and otherwise emits one range from `(r, left)` to
`(r, min right end)`, with the end column obtained from the host geometry. -/
theorem block_mode_resolution (lines : List String) (sr sc er ec : Nat)
    (hrows : max sr er < lines.length) :
    visual lines "\x16" (sr, sc) (er, ec) =
      (List.range' (min sr er) (max sr er + 1 - min sr er)).filterMap
        (fun r =>
          if min sc ec ≤ lineLen lines r then
            some (text_point lines r (min sc ec),
                  text_point lines r (min (max sc ec + 1) (lineLen lines r)))
          else Option.none) := by
  simp only [visual, String.reduceEq, if_true, if_false]
  refine List.filterMap_congr (fun r hr => ?_)
  have hr' : r ≤ max sr er := by
    have := List.mem_range'_1.mp hr
    omega
  have hrlt : r < lines.length := lt_of_le_of_lt hr' hrows
  have h0 : (0 : Nat) ≤ lineLen lines r := Nat.zero_le _
  have hline : line lines (text_point lines r 0) =
      (lineStart lines r, lineStart lines r + lineLen lines r) := by
    simpa [text_point] using line_at lines r 0 hrlt h0
  have hrc : rowcol lines (lineStart lines r + lineLen lines r) =
      (r, lineLen lines r) :=
    rowcol_at lines r (lineLen lines r) hrlt (le_refl _)
  simp only [hline, hrc]

/-- C5 witness: a block over columns 2–5 on rows of lengths 6, 1, 4 skips
the 1-character row and clamps the 4-character row's right edge to its own
end column. -/
theorem block_mode_resolution_witness :
    visual ["abcdef", "a", "abcd"] "\x16" (0, 2) (2, 5) = [(2, 6), (11, 13)] :=
  (block_mode_resolution ["abcdef", "a", "abcd"] 0 2 2 5 (by decide)).trans
    (by decide)

/-- C3 counterexample: with anchor `(2,0)` and cursor `(0,0)` on the lines
`ab`/`cd`/`ef` (anchor offset 6 > cursor offset 0), the resolver emits the
single region `(8, 0)` — from the end of the *anchor's* line to the start of
the *cursor's* line — and not a range from the end of the cursor's line
(offset 2) to the start of the anchor's line (offset 6) in either
orientation. -/
theorem line_mode_reversed_counterexample :
    visual ["ab", "cd", "ef"] "V" (2, 0) (0, 0) = [(8, 0)] ∧
    (line ["ab", "cd", "ef"] (text_point ["ab", "cd", "ef"] 0 0)).2 = 2 ∧
    (line ["ab", "cd", "ef"] (text_point ["ab", "cd", "ef"] 2 0)).1 = 6 ∧
    [((8 : Nat), (0 : Nat))] ≠ [((2 : Nat), (6 : Nat))] ∧
    [((8 : Nat), (0 : Nat))] ≠ [((6 : Nat), (2 : Nat))] := by decide

/-- C3 (amended): when the anchor offset is greater than the cursor offset,
line mode emits exactly one region whose first component is the *end of the
anchor's line* and whose second component is the *start of the cursor's
line* — a reversed region covering start-of-cursor-row through
end-of-anchor-row. -/
theorem line_mode_reversed (lines : List String) (ar ac br bc : Nat)
    (har : ar < lines.length) (hac : ac ≤ lineLen lines ar)
    (hbr : br < lines.length) (hbc : bc ≤ lineLen lines br)
    (hgt : text_point lines br bc < text_point lines ar ac) :
    visual lines "V" (ar, ac) (br, bc) =
      [(lineStart lines ar + lineLen lines ar, lineStart lines br)] := by
  simp only [visual, String.reduceEq, if_true, if_false]
  rw [if_pos hgt]
  have ha := line_at lines ar ac har hac
  have hb := line_at lines br bc hbr hbc
  simp only [text_point] at *
  rw [ha, hb]

/-- C3 witness: anchor `(2,0)`, cursor `(0,0)` on `ab`/`cd`/`ef` yields the
single region `(8, 0)`, spanning start-of-row-0 (offset 0) through
end-of-row-2 (offset 8). -/
theorem line_mode_reversed_witness :
    visual ["ab", "cd", "ef"] "V" (2, 0) (0, 0) = [(8, 0)] :=
  (line_mode_reversed ["ab", "cd", "ef"] 2 0 0 0 (by decide) (by decide)
    (by decide) (by decide) (by decide)).trans (by decide)

/-- C4 counterexample: on a 5-character line, anchor `(0,2)` and cursor
`(0,0)` yield the reversed region `(3, 0)`, not the region `(0, 3)` the
claim states. -/
theorem char_mode_swap_counterexample :
    visual ["abcde"] "v" (0, 2) (0, 0) = [(3, 0)] ∧
    [((3 : Nat), (0 : Nat))] ≠ [((0 : Nat), (3 : Nat))] := by decide

/-- C4 (amended): anchor `(0,0)` / cursor `(0,2)` yields `(0, 3)` while the
swapped pair yields the reversed region `(3, 0)`; the two agree as *spans*
(unordered extents), and in general char mode is symmetric under swapping
anchor and cursor up to region orientation. -/
theorem char_mode_span_symmetry :
    visual ["abcde"] "v" (0, 0) (0, 2) = [(0, 3)] ∧
    visual ["abcde"] "v" (0, 2) (0, 0) = [(3, 0)] ∧
    ∀ (lines : List String) (av bv : Nat × Nat),
      (visual lines "v" av bv).map (fun p => (min p.1 p.2, max p.1 p.2)) =
      (visual lines "v" bv av).map (fun p => (min p.1 p.2, max p.1 p.2)) := by
  refine ⟨by decide, by decide, fun lines av bv => ?_⟩
  simp only [visual, String.reduceEq, if_true, if_false]
  rcases Nat.lt_trichotomy (text_point lines av.1 av.2)
      (text_point lines bv.1 bv.2) with h | h | h
  · rw [if_neg (by omega), if_pos (by omega)]
    simp only [List.map_cons, List.map_nil, Prod.mk.injEq, List.cons.injEq,
      and_true]
    constructor <;> omega
  · rw [if_neg (by omega), if_neg (by omega)]
    simp only [List.map_cons, List.map_nil, Prod.mk.injEq, List.cons.injEq,
      and_true]
    constructor <;> omega
  · rw [if_pos (by omega), if_neg (by omega)]
    simp only [List.map_cons, List.map_nil, Prod.mk.injEq, List.cons.injEq,
      and_true]
    constructor <;> omega

/-- C1: `translate` is *not* total.  On `"ctrl+up"` — a `'+'`-separated key
whose modifier list is exactly `["ctrl"]` and whose base segment is the
multi-character named key `"up"` — the translator raises a `TypeError`
(`ord` of a two-character string) instead of returning a fallback, even
though `"up"` on its own is a recognized named key. -/
theorem keymap_ctrl_up_raises :
    keymap "ctrl+up" = Option.none ∧ keymap "up" = some "\x1b[A" := by
  decide

/-- C2 counterexample: a bridge instance whose attribute dictionary holds
`last_sel = [(3,3)]`, migrated by `reload_classes`, retains that value, but
a field newly introduced by the redefined class's `__init__` does *not*
take the new definition's default: `cls.__new__(cls)` skips `__init__`, so
the blank instance overlays an empty dictionary and the new field is simply
absent after migration. -/
theorem reload_new_field_counterexample :
    reloadEntry (fun k =>
        if k = "last_sel" then some (PyVal.snapshot [(3, 3)])
        else Option.none) "last_sel" = some (PyVal.snapshot [(3, 3)]) ∧
    reloadEntry (fun k =>
        if k = "last_sel" then some (PyVal.snapshot [(3, 3)])
        else Option.none) "engine_generation" = Option.none := by
  constructor <;> rfl

/-- C2 (amended): hot-reload migration installs, for each registry entry, an
instance of the new class whose attribute dictionary is *exactly* the old
instance's: old field values (such as a `last_sel` of `[(3,3)]`) survive
unchanged, and no default of the new definition is overlaid because the
blank instance is created without running `__init__`. -/
theorem reload_migration_preserves_old_fields (old : AttrDict) (k : String) :
    reloadEntry old k = old k := by
  simp only [reloadEntry, dupdate, dempty]
  cases old k <;> rfl

/-- C6: registry lookup behaviour.  (1) `get` with `create = false` on an
unregistered id returns absent.  (2) `get` with `create = true` constructs,
registers and returns a state, and a second `get` for the same live view
returns that identical state without invoking any constructor and without
touching the registry.  (3) when the entry recorded under the id holds a
view that no longer compares equal to the argument view, `get` with
`exact = true` returns absent rather than the stale state. -/
theorem registry_get_behaviour :
    (∀ (reg : Registry) (view : View) (exact : Bool)
       (ctor : View → Option VState),
       rlookup reg view.vid = Option.none →
       (registryGet reg view false exact ctor).1 = Option.none)
    ∧ (∀ (reg : Registry) (view : View) (exact : Bool),
       rlookup reg view.vid = Option.none →
       ∀ ctor2 : View → Option VState,
         (registryGet reg view true exact
             (fun v => some (mkActualVim v))).1 = some (mkActualVim view) ∧
         registryGet (registryGet reg view true exact
             (fun v => some (mkActualVim v))).2 view true true ctor2 =
           (some (mkActualVim view),
            (registryGet reg view true exact
               (fun v => some (mkActualVim v))).2))
    ∧ (∀ (reg : Registry) (view : View) (create : Bool)
         (ctor : View → Option VState) (m : VState),
       rlookup reg view.vid = some m → m.view ≠ view →
       (registryGet reg view create true ctor).1 = Option.none) := by
  refine ⟨?_, ?_, ?_⟩
  · intro reg view exact ctor h
    simp [registryGet, h]
  · intro reg view exact h ctor2
    have hfst : registryGet reg view true exact (fun v => some (mkActualVim v)) =
        (some (mkActualVim view), reg ++ [(view.vid, mkActualVim view)]) := by
      simp [registryGet, h]
    refine ⟨by rw [hfst], ?_⟩
    have hl : rlookup (reg ++ [(view.vid, mkActualVim view)]) view.vid =
        some (mkActualVim view) := by
      simp only [rlookup, List.find?_append]
      simp only [rlookup] at h
      cases hfind : reg.find? (fun p => p.1 = view.vid) with
      | none => simp [List.find?]
      | some p => rw [hfind] at h; simp at h
    rw [hfst]
    simp only [mkActualVim] at hl
    simp [registryGet, hl, mkActualVim]
  · intro reg view create ctor m hm hmm
    simp [registryGet, hm, hmm]

/-- C6 witness: on an empty registry, `create = false` yields absent;
`create = true` twice yields the same instance; a stale entry (same id,
different live view) with `exact = true` yields absent. -/
theorem registry_get_behaviour_witness :
    ((registryGet [] ⟨1, 10⟩ false true
        (fun v => some (mkActualVim v))).1 = Option.none) ∧
    ((registryGet [] ⟨1, 10⟩ true true
        (fun v => some (mkActualVim v))).1 = some (mkActualVim ⟨1, 10⟩) ∧
     registryGet (registryGet [] ⟨1, 10⟩ true true
         (fun v => some (mkActualVim v))).2 ⟨1, 10⟩ true true
         (fun _ => Option.none) =
       (some (mkActualVim ⟨1, 10⟩),
        (registryGet [] ⟨1, 10⟩ true true
          (fun v => some (mkActualVim v))).2)) ∧
    ((registryGet [(1, mkActualVim ⟨1, 99⟩)] ⟨1, 100⟩ true true
        (fun v => some (mkActualVim v))).1 = Option.none) :=
  ⟨registry_get_behaviour.1 [] ⟨1, 10⟩ true _ (by decide),
   registry_get_behaviour.2.1 [] ⟨1, 10⟩ true (by decide) _,
   registry_get_behaviour.2.2 [(1, mkActualVim ⟨1, 99⟩)] ⟨1, 100⟩ true _
     (mkActualVim ⟨1, 99⟩) (by decide) (by decide)⟩

/-- C7 counterexample: with a stale entry registered under id 1 (recorded
view `⟨1, 99⟩`, argument view `⟨1, 100⟩`) and `create = true`, `get` returns
absent and leaves the registry unchanged — no new state is constructed even
though the constructor would have succeeded, and the caller ends up with no
binding. -/
theorem identity_mismatch_counterexample :
    registryGet [(1, mkActualVim ⟨1, 99⟩)] ⟨1, 100⟩ true true
        (fun v => some (mkActualVim v)) =
      (Option.none, [(1, mkActualVim ⟨1, 99⟩)]) := by
  decide

/-- C7 (amended): an identity mismatch on a reused surface id with
`exact = true` is *not* treated as a cache miss: `get` returns absent
without constructing anything and without modifying the registry, for any
`create` flag and any constructor. -/
theorem identity_mismatch_returns_absent (reg : Registry) (view : View)
    (create : Bool) (ctor : View → Option VState) (m : VState)
    (hm : rlookup reg view.vid = some m) (hmm : m.view ≠ view) :
    registryGet reg view create true ctor = (Option.none, reg) := by
  simp [registryGet, hm, hmm]

/-- C7 witness: concrete stale entry, `create = true`, succeeding
constructor — the call still yields absent with the registry unchanged. -/
theorem identity_mismatch_returns_absent_witness :
    registryGet [(2, mkActualVim ⟨2, 7⟩)] ⟨2, 8⟩ true true
        (fun v => some (mkActualVim v)) =
      (Option.none, [(2, mkActualVim ⟨2, 7⟩)]) :=
  identity_mismatch_returns_absent [(2, mkActualVim ⟨2, 7⟩)] ⟨2, 8⟩ true
    (fun v => some (mkActualVim v)) (mkActualVim ⟨2, 7⟩) (by decide)
    (by decide)

/-- C10: with `exact = false`, registry lookup skips identity revalidation:
a registered entry is returned as-is even when its recorded view no longer
compares equal to the argument view, so the caller can receive a bridge
bound to a destroyed-and-reused surface id. -/
theorem inexact_get_skips_revalidation (reg : Registry) (view : View)
    (create : Bool) (ctor : View → Option VState) (m : VState)
    (hm : rlookup reg view.vid = some m) (_hmm : m.view ≠ view) :
    registryGet reg view create false ctor = (some m, reg) := by
  simp [registryGet, hm]

/-- C10 witness: a stale entry under id 3 is returned unchanged by an
`exact = false` lookup. -/
theorem inexact_get_skips_revalidation_witness :
    registryGet [(3, mkActualVim ⟨3, 20⟩)] ⟨3, 21⟩ true false
        (fun v => some (mkActualVim v)) =
      (some (mkActualVim ⟨3, 20⟩), [(3, mkActualVim ⟨3, 20⟩)]) :=
  inexact_get_skips_revalidation [(3, mkActualVim ⟨3, 20⟩)] ⟨3, 21⟩ true
    (fun v => some (mkActualVim v)) (mkActualVim ⟨3, 20⟩) (by decide)
    (by decide)

/-- C8: after `press` forwards the translated key to the engine, the host
text is replaced by the engine buffer's joined lines *iff* the two differ:
when they are equal no edit operation is performed, and when they differ the
mutation is a single replace of the full text region inside the one `Edit`
transaction. -/
theorem press_text_sync (engine : String → List String → List String)
    (host : String) (b : List String) (key lit : String)
    (hkey : keymap key = some lit) :
    (host = String.intercalate "\n" (engine lit b) →
       press engine ⟨host, some b⟩ key = some (host, [])) ∧
    (host ≠ String.intercalate "\n" (engine lit b) →
       press engine ⟨host, some b⟩ key =
         some (String.intercalate "\n" (engine lit b),
               [EditOp.replace 0 host.length
                  (String.intercalate "\n" (engine lit b))])) := by
  constructor <;> intro h <;> simp [press, activate, hkey, h]

/-- C8 witness: an engine response that appends a line differs from the
host text, so `press` performs exactly one full-region replace; the host
text after the call is the engine's joined content. -/
theorem press_text_sync_witness :
    press (fun lit b => b ++ [lit]) ⟨"abc", some ["abc"]⟩ "x" =
      some ("abc\nx", [EditOp.replace 0 3 "abc\nx"]) :=
  ((press_text_sync (fun lit b => b ++ [lit]) "abc" ["abc"] "x" "x"
      (by decide)).2 (by decide)).trans (by decide)

/-- C9 counterexample: with a panel already open (handle 0), `show` opens
the new input panel and overwrites the stored handle without issuing any
close for the previous panel: the host calls made are exactly
`[showInput]`. -/
theorem panel_show_no_close_counterexample :
    panelShow ⟨some 0⟩ ":" 1 =
      ({ panel := some 1 }, [PanelCall.showInput ":"]) ∧
    PanelCall.closePanel 0 ∉ (panelShow ⟨some 0⟩ ":" 1).2 := by
  decide

/-- C9 (amended): `show` never closes the previously opened panel itself —
it issues only the open call and overwrites the retained handle, so the
adapter keeps at most one panel handle while any close of the previous
panel is left to the host's input-widget replacement. -/
theorem panel_show_overwrites_without_close (st : PanelState) (char : String)
    (newId : Nat) :
    panelShow st char newId =
      ({ panel := some newId }, [PanelCall.showInput char]) ∧
    ∀ i : Nat, PanelCall.closePanel i ∉ (panelShow st char newId).2 := by
  refine ⟨rfl, fun i => ?_⟩
  simp [panelShow]

end ActualVim
